import Mathlib

/-!
A shallow embedding of the Hailo8 installation orchestrator
(`hailo8_installer/installer.py` and `docker_manager.py`) and proofs about
it.

The embedding follows the Python source:

* `InstallStatus`, `ComponentType`, `InstallComponent` mirror the enums and
  the dataclass at the top of `installer.py`.
* `CompName` is the fixed set of keys of the `self.components` dict built by
  `_initialize_components`; `pipelineOrder` is the fixed order of
  `install_steps` in `install_all`.
* State persistence (`_save_state` / `_load_state`) is modelled through a
  small universe `PyVal` of Python values together with `jsonSerializable`,
  which captures which values Python's `json.dump` accepts.  Crucially,
  `dataclasses.asdict` leaves `Enum` members (the `type` and `status`
  fields) as `Enum` objects, and `json.dump` raises `TypeError` on an
  `Enum` member that is not also a `str`/`int` subclass.  `_save_state`
  opens the state file with mode `"w"` (truncating it) and streams the
  document; the `TypeError` is raised mid-stream and swallowed by the
  surrounding `except`, so the file is left holding a truncated, invalid
  prefix.  `FileContent.truncatedFile` represents such a file.
* The shell boundary (`_execute_command`, `DockerHailo8Manager.run_command`)
  is modelled by `CmdOutcome` (what the child process / OS did) and total
  functions interpreting the `try`/`except` logic of the source.
* `install_all` / `_retry_operation` / `_attempt_repair` are modelled as a
  deterministic machine over `RunSt`, parametrised by an `Env` that gives
  the result of each invocation of each component's install function and
  repair function (the claims quantify over mocked behaviours of exactly
  these).  The machine records each invocation in a trace so that
  properties about *when* a function is invoked can be stated.
-/

set_option maxHeartbeats 1000000

namespace Hailo8

/-- `InstallStatus` enum of `installer.py` (values `"pending"`, `"running"`,
`"success"`, `"failed"`, `"rollback"`, `"recovered"`). -/
inductive InstallStatus where
  | pending
  | running
  | success
  | failed
  | rollback
  | recovered
deriving DecidableEq, Repr

/-- `ComponentType` enum of `installer.py`. -/
inductive ComponentType where
  | system_check
  | dependencies
  | pcie_driver
  | hailort
  | docker_config
  | validation
deriving DecidableEq, Repr

/-- The keys of the `self.components` dict built by
`_initialize_components`, i.e. the identities of the six pipeline
components. -/
inductive CompName where
  | system_check
  | dependencies
  | pcie_driver
  | hailort
  | docker_config
  | validation
deriving DecidableEq, Repr, Fintype

/-- The `InstallComponent` dataclass.  `rollback_data` has default `None`
and is never assigned anywhere in the source, so it is modelled as an
`Option Unit` that stays `none`. -/
structure InstallComponent where
  name : String
  type : ComponentType
  status : InstallStatus
  version : String := ""
  error_msg : String := ""
  rollback_data : Option Unit := none
  retry_count : Nat := 0
  max_retries : Nat := 3
deriving DecidableEq, Repr

/-- The in-memory component map `self.components`. -/
def Components : Type := CompName → InstallComponent

instance : DecidableEq Components :=
  inferInstanceAs (DecidableEq (CompName → InstallComponent))

/-- Point update of the component map (`self.components[name] = ...`). -/
def upd (m : Components) (n : CompName) (c : InstallComponent) : Components :=
  fun n' => if n' = n then c else m n'

@[simp] theorem upd_self (m : Components) (n : CompName) (c : InstallComponent) :
    upd m n c n = c := by
  simp [upd]

@[simp] theorem upd_other (m : Components) (n n' : CompName) (c : InstallComponent)
    (h : n' ≠ n) : upd m n c n' = m n' := by
  simp [upd, h]

/-- `_initialize_components`: all six components start `PENDING` with the
Chinese display names of the source. -/
def initComponents : Components := fun n =>
  match n with
  | .system_check =>
      { name := "系统环境检查", type := .system_check, status := .pending }
  | .dependencies =>
      { name := "系统依赖安装", type := .dependencies, status := .pending }
  | .pcie_driver =>
      { name := "PCIe驱动安装", type := .pcie_driver, status := .pending }
  | .hailort =>
      { name := "HailoRT运行时安装", type := .hailort, status := .pending }
  | .docker_config =>
      { name := "Docker配置", type := .docker_config, status := .pending }
  | .validation =>
      { name := "安装验证", type := .validation, status := .pending }

/-- The string key of a component in the `self.components` dict. -/
def keyOfName : CompName → String
  | .system_check => "system_check"
  | .dependencies => "dependencies"
  | .pcie_driver => "pcie_driver"
  | .hailort => "hailort"
  | .docker_config => "docker_config"
  | .validation => "validation"

/-- Reverse lookup used by `_load_state` (`if name in self.components`). -/
def nameOfKey (s : String) : Option CompName :=
  if s = "system_check" then some .system_check
  else if s = "dependencies" then some .dependencies
  else if s = "pcie_driver" then some .pcie_driver
  else if s = "hailort" then some .hailort
  else if s = "docker_config" then some .docker_config
  else if s = "validation" then some .validation
  else none

/-- The fixed order of `install_steps` in `install_all`. -/
def pipelineOrder : List CompName :=
  [.system_check, .dependencies, .pcie_driver, .hailort, .docker_config, .validation]

/-! ## The Python value universe and `json.dump` -/

mutual

/-- A universe of Python values large enough for the `state_data` document of
`_save_state`: strings, ints, `None`, dicts (with insertion order, as
`PyFields`), and raw `Enum` members of the two enums (which
`dataclasses.asdict` leaves in place). -/
inductive PyVal where
  | pyStr : String → PyVal
  | pyInt : Int → PyVal
  | pyNone : PyVal
  | pyStatusEnum : InstallStatus → PyVal
  | pyTypeEnum : ComponentType → PyVal
  | pyDict : PyFields → PyVal

/-- The key/value entries of a Python dict, in insertion order. -/
inductive PyFields where
  | nil : PyFields
  | cons : String → PyVal → PyFields → PyFields

end

mutual

/-- Whether Python's `json.dump` (with the default encoder, as called in
`_save_state`) accepts the value.  `str`, `int` and `None` are serializable;
an `Enum` member whose class does not subclass `str`/`int` (the case for
`InstallStatus` and `ComponentType`) makes the default `JSONEncoder.default`
raise `TypeError`; a dict is serializable iff all of its values are. -/
def jsonSerializable : PyVal → Bool
  | .pyStr _ => true
  | .pyInt _ => true
  | .pyNone => true
  | .pyStatusEnum _ => false
  | .pyTypeEnum _ => false
  | .pyDict fs => fieldsSerializable fs

def fieldsSerializable : PyFields → Bool
  | .nil => true
  | .cons _ v rest => jsonSerializable v && fieldsSerializable rest

end

/-- `dataclasses.asdict` applied to an `InstallComponent`: a dict in field
order, with the `type` and `status` values still raw `Enum` members. -/
def asdictComp (c : InstallComponent) : PyVal :=
  .pyDict
    (.cons "name" (.pyStr c.name)
    (.cons "type" (.pyTypeEnum c.type)
    (.cons "status" (.pyStatusEnum c.status)
    (.cons "version" (.pyStr c.version)
    (.cons "error_msg" (.pyStr c.error_msg)
    (.cons "rollback_data" .pyNone
    (.cons "retry_count" (.pyInt c.retry_count)
    (.cons "max_retries" (.pyInt c.max_retries)
    .nil))))))))

/-- The `components` sub-dict of `state_data`: the six components in dict
insertion order (which is `pipelineOrder`), each through
`dataclasses.asdict`. -/
def componentsDict : List CompName → Components → PyFields
  | [], _ => .nil
  | n :: rest, cs => .cons (keyOfName n) (asdictComp (cs n)) (componentsDict rest cs)

/-- The `state_data` dict of `_save_state`.  `time.time()` returns a float;
its value is irrelevant to every property here (serialization fails before
reaching it), so the timestamp is carried as an integer. -/
def stateDataPyVal (cs : Components) (timestamp : Int) (installDir : String) : PyVal :=
  .pyDict
    (.cons "components" (.pyDict (componentsDict pipelineOrder cs))
    (.cons "timestamp" (.pyInt timestamp)
    (.cons "install_dir" (.pyStr installDir)
    .nil)))

/-- What the state file can hold: missing, a truncated prefix left behind by
a `json.dump` that raised mid-stream, or a complete well-formed JSON
document (represented by the `PyVal` that `json.load` would return). -/
inductive FileContent where
  | absent
  | truncatedFile
  | doc : PyVal → FileContent

/-- `_save_state`: build `state_data`, open the state file with `"w"`
(truncate) and `json.dump` into it.  If the document is serializable the
file ends up holding it; otherwise `json.dump` raises `TypeError` after
streaming a prefix, the `except` clause logs and swallows the exception,
and the file is left truncated/invalid. -/
def saveState (cs : Components) (timestamp : Int) (installDir : String) : FileContent :=
  let doc := stateDataPyVal cs timestamp installDir
  if jsonSerializable doc then .doc doc else .truncatedFile

/-! ## `_load_state` -/

/-- Look up a key in a Python dict represented as insertion-ordered entries
(later duplicates shadow earlier ones, as in `dict`; the documents here
never contain duplicates). -/
def pyFieldsGet : PyFields → String → Option PyVal
  | .nil, _ => none
  | .cons k v rest, key =>
      match pyFieldsGet rest key with
      | some v' => some v'
      | none => if k = key then some v else none

/-- `InstallStatus(value)` on a string, as `_load_state` performs. -/
def statusOfValue (s : String) : Option InstallStatus :=
  if s = "pending" then some .pending
  else if s = "running" then some .running
  else if s = "success" then some .success
  else if s = "failed" then some .failed
  else if s = "rollback" then some .rollback
  else if s = "recovered" then some .recovered
  else none

/-- `ComponentType(value)` on a string, as `_load_state` performs. -/
def typeOfValue (s : String) : Option ComponentType :=
  if s = "system_check" then some .system_check
  else if s = "dependencies" then some .dependencies
  else if s = "pcie_driver" then some .pcie_driver
  else if s = "hailort" then some .hailort
  else if s = "docker_config" then some .docker_config
  else if s = "validation" then some .validation
  else none

/-- Rebuild one `InstallComponent` from its loaded dict, as `_load_state`
does: convert the `type` and `status` strings through the enum
constructors, then `InstallComponent(**component_data)`.  Any missing or
ill-typed field raises in Python; that is the `none` case here. -/
def compOfPyVal (v : PyVal) : Option InstallComponent :=
  match v with
  | .pyDict kvs => do
      let nameV ← pyFieldsGet kvs "name"
      let typeV ← pyFieldsGet kvs "type"
      let statusV ← pyFieldsGet kvs "status"
      let versionV ← pyFieldsGet kvs "version"
      let errV ← pyFieldsGet kvs "error_msg"
      let retryV ← pyFieldsGet kvs "retry_count"
      let maxV ← pyFieldsGet kvs "max_retries"
      match nameV, typeV, statusV, versionV, errV, retryV, maxV with
      | .pyStr nm, .pyStr ty, .pyStr st, .pyStr ver, .pyStr err,
        .pyInt rc, .pyInt mr =>
          -- Python ints are unbounded; the counters are modelled as `Nat`
          -- since every document the program itself writes has non-negative
          -- counters, so negative-counter documents are outside the universe.
          if rc < 0 ∨ mr < 0 then none else
          (typeOfValue ty).bind fun ty' =>
          (statusOfValue st).bind fun st' =>
          some { name := nm, type := ty', status := st', version := ver,
                 error_msg := err, rollback_data := none,
                 retry_count := rc.toNat, max_retries := mr.toNat }
      | _, _, _, _, _, _, _ => none
  | _ => none

/-- The restore loop of `_load_state`: iterate over the loaded
`components` dict in order; known names are rebuilt and written into
`self.components` one at a time; an exception while rebuilding aborts the
rest of the loop but keeps the mutations already made (the outer `except`
swallows it). -/
def restoreComponents : PyFields → Components → Components
  | .nil, cur => cur
  | .cons k v rest, cur =>
      match nameOfKey k with
      | none => restoreComponents rest cur
      | some n =>
          match compOfPyVal v with
          | some c => restoreComponents rest (upd cur n c)
          | none => cur

/-- `_load_state`: a missing file keeps the freshly initialised components;
a file that fails to parse as JSON raises inside the `try`, is caught, and
likewise keeps the current components; a well-formed document has its
`components` dict walked by the restore loop. -/
def loadState (file : FileContent) (cur : Components) : Components :=
  match file with
  | .absent => cur
  | .truncatedFile => cur
  | .doc v =>
      match v with
      | .pyDict kvs =>
          match pyFieldsGet kvs "components" with
          | some (.pyDict ckvs) => restoreComponents ckvs cur
          | some _ => cur
          | none => restoreComponents .nil cur
      | _ => cur

/-! ## The shell boundary: `_execute_command` / `run_command` -/

/-- What actually happens to one shell invocation: the child runs and exits
with a return code and captured streams, the timeout expires, or the OS
fails to spawn the process (e.g. `FileNotFoundError`). -/
inductive CmdOutcome where
  | exited : Int → String → String → CmdOutcome
  | timedOut : CmdOutcome
  | spawnFailure : String → CmdOutcome
deriving DecidableEq, Repr

/-- The Python exceptions `subprocess.run` can raise here (with
`check=False` a non-zero exit does *not* raise). -/
inductive PyExc where
  | timeoutExpired : PyExc
  | osError : String → PyExc
deriving DecidableEq, Repr

/-- `subprocess.run(command, capture_output=..., text=True, timeout=...,
check=False)`: returns the completed process on exit (any return code),
raises `TimeoutExpired` on timeout, raises an `OSError`-like exception on a
spawn failure. -/
def subprocessRun (o : CmdOutcome) : Except PyExc (Int × String × String) :=
  match o with
  | .exited rc out err => .ok (rc, out, err)
  | .timedOut => .error .timeoutExpired
  | .spawnFailure msg => .error (.osError msg)

/-- `Hailo8Installer._execute_command` as written: the whole body is inside
`try`; `subprocess.TimeoutExpired` is converted to
`(False, "", "命令执行超时")` and any other `Exception` to
`(False, "", str(e))`; a completed process yields
`(returncode == 0, stdout, stderr)` (empty strings when
`capture_output=False`).  The `Except` codomain makes "never raises to the
caller" a provable statement rather than a typing artifact. -/
def executeCommandTry (o : CmdOutcome) (captureOutput : Bool) :
    Except PyExc (Bool × String × String) :=
  match subprocessRun o with
  | .ok (rc, out, err) =>
      .ok (rc == 0, if captureOutput then out else "", if captureOutput then err else "")
  | .error .timeoutExpired => .ok (false, "", "命令执行超时")
  | .error (.osError msg) => .ok (false, "", msg)

/-- The value `_execute_command` hands back to its caller. -/
def executeCommand (o : CmdOutcome) (captureOutput : Bool) : Bool × String × String :=
  match executeCommandTry o captureOutput with
  | .ok r => r
  | .error _ => (false, "", "")

/-- `DockerHailo8Manager.run_command` (`docker_manager.py`): same
`try`/`except` shape, always capturing output. -/
def dockerRunCommandTry (o : CmdOutcome) : Except PyExc (Bool × String × String) :=
  match subprocessRun o with
  | .ok (rc, out, err) => .ok (rc == 0, out, err)
  | .error .timeoutExpired => .ok (false, "", "命令执行超时")
  | .error (.osError msg) => .ok (false, "", msg)

/-! ## The orchestrator machine -/

/-- What one invocation of a component's install function does: return a
truthy value, return a falsy value, or raise an exception carrying
`str(e) = msg`. -/
inductive OpResult where
  | ok : OpResult
  | fail : OpResult
  | exc : String → OpResult
deriving DecidableEq, Repr

/-- The behaviour of the mocked/underlying stage functions: for each
component, the result of its `k`-th install-function invocation and of its
`k`-th repair-function invocation.  The claims quantify over exactly these
behaviours.  (The concrete stage functions shell out through
`_execute_command`; the claims mock them, so they are the abstraction
boundary here.  None of the repair strategies in the source mutate
`self.components`, so a repair is summarised by its boolean result.) -/
structure Env where
  install : CompName → Nat → OpResult
  repair : CompName → Nat → Bool

/-- Trace events recorded by the machine: an invocation of a component's
install function together with the component map at the moment of the call,
and an invocation of a component's repair function with its result. -/
inductive Event where
  | installCall : CompName → Components → Event
  | repairCall : CompName → Bool → Event
deriving DecidableEq

/-- The orchestrator's run-time state: the in-memory component map, the
state file, per-component counters of install/repair invocations, and the
event trace (the counters and trace are instrumentation of the calls the
Python code makes; the code itself keeps no such counters). -/
structure RunSt where
  comps : Components
  file : FileContent
  installCalls : CompName → Nat
  repairCalls : CompName → Nat
  events : List Event

/-- The state of a freshly constructed orchestrator over a state file:
`__init__` initialises the components and then `_load_state` merges the
file into them. -/
def freshRunSt (file : FileContent) : RunSt :=
  { comps := loadState file initComponents
    file := file
    installCalls := fun _ => 0
    repairCalls := fun _ => 0
    events := [] }

/-- `installDirDefault` is the default `install_dir` of `Hailo8Installer`. -/
def installDirDefault : String := "/opt/hailo8"

/-- `self._save_state()` from inside the machine: the file is rewritten
from the current in-memory map.  (The timestamp is irrelevant: the
document is never serializable.) -/
def doSave (st : RunSt) : RunSt :=
  { st with file := saveState st.comps 0 installDirDefault }

/-- Mutate one component in place (`component.status = ...` etc.). -/
def updComp (st : RunSt) (n : CompName) (f : InstallComponent → InstallComponent) : RunSt :=
  { st with comps := upd st.comps n (f (st.comps n)) }

/-- One invocation of component `n`'s install function: record the call and
hand back the environment's scripted result. -/
def callInstall (env : Env) (n : CompName) (st : RunSt) : OpResult × RunSt :=
  (env.install n (st.installCalls n),
   { st with
      installCalls := fun m => if m = n then st.installCalls n + 1 else st.installCalls m
      events := st.events ++ [.installCall n st.comps] })

/-- `_retry_operation(operation_func, component_name)`:

```
while component.retry_count < component.max_retries:
    try:
        component.status = RUNNING; self._save_state()
        result = operation_func()
        if result:
            component.status = SUCCESS; component.error_msg = ""
            self._save_state(); return True
        else:
            component.retry_count += 1
    except Exception as e:
        component.retry_count += 1; component.error_msg = str(e)
component.status = FAILED; self._save_state(); return False
```

The loop is written with explicit fuel so that it evaluates by reduction;
every failing iteration increments `retry_count` while `max_retries` stays
fixed, so `max_retries - retry_count + 1` units of fuel (what
`retryOperation` supplies) are enough that the `0` case — written to
coincide with the loop-exit branch — is only ever reached when the loop
condition is false anyway. -/
def retryLoopFuel (env : Env) (n : CompName) : Nat → RunSt → Bool × RunSt
  | 0, st => (false, doSave (updComp st n fun c => { c with status := .failed }))
  | fuel + 1, st =>
      if (st.comps n).retry_count < (st.comps n).max_retries then
        let st1 := doSave (updComp st n fun c => { c with status := .running })
        let res := (callInstall env n st1).1
        let st2 := (callInstall env n st1).2
        match res with
        | .ok =>
            (true, doSave (updComp st2 n fun c => { c with status := .success, error_msg := "" }))
        | .fail =>
            retryLoopFuel env n fuel
              (updComp st2 n fun c => { c with retry_count := c.retry_count + 1 })
        | .exc msg =>
            retryLoopFuel env n fuel
              (updComp st2 n fun c => { c with retry_count := c.retry_count + 1, error_msg := msg })
      else
        (false, doSave (updComp st n fun c => { c with status := .failed }))

/-- `_retry_operation(operation_func, component_name)` with adequate fuel. -/
def retryOperation (env : Env) (n : CompName) (st : RunSt) : Bool × RunSt :=
  retryLoopFuel env n ((st.comps n).max_retries - (st.comps n).retry_count + 1) st

/-- `_attempt_repair(component_name)`: look up the stage-specific repair
strategy (one exists for each of the six components) and invoke it once;
none of the strategies touch the component map. -/
def attemptRepair (env : Env) (n : CompName) (st : RunSt) : Bool × RunSt :=
  let res := env.repair n (st.repairCalls n)
  (res,
   { st with
      repairCalls := fun m => if m = n then st.repairCalls n + 1 else st.repairCalls m
      events := st.events ++ [.repairCall n res] })

/-- The loop body of `install_all` over the remaining `install_steps`:
skip components already `SUCCESS`; otherwise run the retry wrapper; on
failure attempt repair once; a failed repair aborts the whole run with
`False`. -/
def installAllAux (env : Env) : List CompName → RunSt → Bool × RunSt
  | [], st => (true, st)
  | n :: rest, st =>
      if (st.comps n).status = .success then
        installAllAux env rest st
      else
        let ok := (retryOperation env n st).1
        let st1 := (retryOperation env n st).2
        if ok then
          installAllAux env rest st1
        else
          let rok := (attemptRepair env n st1).1
          let st2 := (attemptRepair env n st1).2
          if rok then
            installAllAux env rest st2
          else
            (false, st2)

/-- `Hailo8Installer.install_all()`. -/
def installAll (env : Env) (st : RunSt) : Bool × RunSt :=
  installAllAux env pipelineOrder st

/-- `rollback_installation()`: issue five shell commands (stop Docker,
`rmmod` the module, `dpkg -r` the two packages, `pip3 uninstall`), whose
results are not inspected; then reset every component to `PENDING` with
cleared `error_msg` and `retry_count`; save; return `True`. -/
def rollbackInstallation (st : RunSt) (cmdOutcomes : Fin 5 → CmdOutcome) : Bool × RunSt :=
  let _ := executeCommand (cmdOutcomes 0) true
  let _ := executeCommand (cmdOutcomes 1) true
  let _ := executeCommand (cmdOutcomes 2) true
  let _ := executeCommand (cmdOutcomes 3) true
  let _ := executeCommand (cmdOutcomes 4) true
  let comps' : Components := fun n =>
    { st.comps n with status := .pending, error_msg := "", retry_count := 0 }
  (true, doSave { st with comps := comps' })

/-! ## Basic lemmas about the machine's single steps -/

theorem upd_upd (m : Components) (n : CompName) (c c' : InstallComponent) :
    upd (upd m n c) n c' = upd m n c' := by
  funext x
  by_cases hx : x = n <;> simp [upd, hx]

@[simp] theorem doSave_comps (st : RunSt) : (doSave st).comps = st.comps := rfl
@[simp] theorem doSave_installCalls (st : RunSt) :
    (doSave st).installCalls = st.installCalls := rfl
@[simp] theorem doSave_repairCalls (st : RunSt) :
    (doSave st).repairCalls = st.repairCalls := rfl
@[simp] theorem doSave_events (st : RunSt) : (doSave st).events = st.events := rfl

@[simp] theorem updComp_comps (st : RunSt) (n : CompName)
    (f : InstallComponent → InstallComponent) :
    (updComp st n f).comps = upd st.comps n (f (st.comps n)) := rfl
@[simp] theorem updComp_installCalls (st : RunSt) (n : CompName)
    (f : InstallComponent → InstallComponent) :
    (updComp st n f).installCalls = st.installCalls := rfl
@[simp] theorem updComp_repairCalls (st : RunSt) (n : CompName)
    (f : InstallComponent → InstallComponent) :
    (updComp st n f).repairCalls = st.repairCalls := rfl
@[simp] theorem updComp_events (st : RunSt) (n : CompName)
    (f : InstallComponent → InstallComponent) :
    (updComp st n f).events = st.events := rfl

@[simp] theorem callInstall_fst (env : Env) (n : CompName) (st : RunSt) :
    (callInstall env n st).1 = env.install n (st.installCalls n) := rfl
@[simp] theorem callInstall_comps (env : Env) (n : CompName) (st : RunSt) :
    ((callInstall env n st).2).comps = st.comps := rfl
@[simp] theorem callInstall_installCalls_self (env : Env) (n : CompName) (st : RunSt) :
    ((callInstall env n st).2).installCalls n = st.installCalls n + 1 := by
  simp [callInstall]
@[simp] theorem callInstall_installCalls_other (env : Env) (n : CompName) (st : RunSt)
    (m : CompName) (hm : m ≠ n) :
    ((callInstall env n st).2).installCalls m = st.installCalls m := by
  simp [callInstall, hm]
@[simp] theorem callInstall_repairCalls (env : Env) (n : CompName) (st : RunSt) :
    ((callInstall env n st).2).repairCalls = st.repairCalls := rfl
@[simp] theorem callInstall_events (env : Env) (n : CompName) (st : RunSt) :
    ((callInstall env n st).2).events = st.events ++ [.installCall n st.comps] := rfl

@[simp] theorem attemptRepair_fst (env : Env) (n : CompName) (st : RunSt) :
    (attemptRepair env n st).1 = env.repair n (st.repairCalls n) := rfl
@[simp] theorem attemptRepair_comps (env : Env) (n : CompName) (st : RunSt) :
    ((attemptRepair env n st).2).comps = st.comps := rfl
@[simp] theorem attemptRepair_installCalls (env : Env) (n : CompName) (st : RunSt) :
    ((attemptRepair env n st).2).installCalls = st.installCalls := rfl
@[simp] theorem attemptRepair_repairCalls_self (env : Env) (n : CompName) (st : RunSt) :
    ((attemptRepair env n st).2).repairCalls n = st.repairCalls n + 1 := by
  simp [attemptRepair]
@[simp] theorem attemptRepair_repairCalls_other (env : Env) (n : CompName) (st : RunSt)
    (m : CompName) (hm : m ≠ n) :
    ((attemptRepair env n st).2).repairCalls m = st.repairCalls m := by
  simp [attemptRepair, hm]
@[simp] theorem attemptRepair_events (env : Env) (n : CompName) (st : RunSt) :
    ((attemptRepair env n st).2).events =
      st.events ++ [.repairCall n (env.repair n (st.repairCalls n))] := rfl

/-! ## Lemmas about the retry loop -/

/-- The retry wrapper never touches the repair counters. -/
theorem retryLoopFuel_repairCalls (env : Env) (n : CompName) (fuel : Nat) (st : RunSt) :
    ((retryLoopFuel env n fuel st).2).repairCalls = st.repairCalls := by
  induction fuel generalizing st with
  | zero => rfl
  | succ f ih =>
      simp only [retryLoopFuel]
      split
      · cases henv : env.install n (st.installCalls n) <;>
          simp [henv, ih]
      · rfl

/-- The retry wrapper for `n` never touches another component's record. -/
theorem retryLoopFuel_comps_other (env : Env) (n : CompName) (fuel : Nat) (st : RunSt)
    (m : CompName) (hm : m ≠ n) :
    ((retryLoopFuel env n fuel st).2).comps m = st.comps m := by
  induction fuel generalizing st with
  | zero => simp [retryLoopFuel, hm]
  | succ f ih =>
      simp only [retryLoopFuel]
      split
      · cases henv : env.install n (st.installCalls n) <;>
          simp [henv, ih, hm]
      · simp [hm]

/-- The retry wrapper for `n` never touches another component's install
counter. -/
theorem retryLoopFuel_installCalls_other (env : Env) (n : CompName) (fuel : Nat) (st : RunSt)
    (m : CompName) (hm : m ≠ n) :
    ((retryLoopFuel env n fuel st).2).installCalls m = st.installCalls m := by
  induction fuel generalizing st with
  | zero => rfl
  | succ f ih =>
      simp only [retryLoopFuel]
      split
      · cases henv : env.install n (st.installCalls n) <;>
          simp [henv, ih, hm]
      · rfl

/-- A `False` return from the retry wrapper leaves the component `FAILED`. -/
theorem retryLoopFuel_false_failed (env : Env) (n : CompName) (fuel : Nat) (st : RunSt)
    (h : (retryLoopFuel env n fuel st).1 = false) :
    (((retryLoopFuel env n fuel st).2).comps n).status = .failed := by
  induction fuel generalizing st with
  | zero => simp [retryLoopFuel]
  | succ f ih =>
      by_cases hrc : (st.comps n).retry_count < (st.comps n).max_retries
      · simp only [retryLoopFuel, if_pos hrc] at h ⊢
        cases henv : env.install n (st.installCalls n) <;>
          simp_all [henv]
      · simp [retryLoopFuel, if_neg hrc]

/-- A `True` return from the retry wrapper leaves the component `SUCCESS`
with its error message cleared. -/
theorem retryLoopFuel_true_success (env : Env) (n : CompName) (fuel : Nat) (st : RunSt)
    (h : (retryLoopFuel env n fuel st).1 = true) :
    (((retryLoopFuel env n fuel st).2).comps n).status = .success ∧
    (((retryLoopFuel env n fuel st).2).comps n).error_msg = "" := by
  induction fuel generalizing st with
  | zero => simp [retryLoopFuel] at h
  | succ f ih =>
      by_cases hrc : (st.comps n).retry_count < (st.comps n).max_retries
      · simp only [retryLoopFuel, if_pos hrc] at h ⊢
        cases henv : env.install n (st.installCalls n) <;>
          simp_all [henv]
      · simp [retryLoopFuel, if_neg hrc] at h

/-- When the loop condition holds and the very next install invocation
returns truthy, the retry wrapper succeeds immediately: one install call,
component set `SUCCESS` with error cleared, nothing else changed, and
exactly one trace event recording the call (made with the component already
marked `RUNNING`). -/
theorem retryLoopFuel_ok_step (env : Env) (n : CompName) (fuel : Nat) (st : RunSt)
    (hrc : (st.comps n).retry_count < (st.comps n).max_retries)
    (hok : env.install n (st.installCalls n) = .ok) :
    (retryLoopFuel env n (fuel + 1) st).1 = true ∧
    ((retryLoopFuel env n (fuel + 1) st).2).comps =
      upd st.comps n { st.comps n with status := .success, error_msg := "" } ∧
    ((retryLoopFuel env n (fuel + 1) st).2).installCalls n = st.installCalls n + 1 ∧
    (∀ m, m ≠ n →
      ((retryLoopFuel env n (fuel + 1) st).2).installCalls m = st.installCalls m) ∧
    ((retryLoopFuel env n (fuel + 1) st).2).repairCalls = st.repairCalls ∧
    ((retryLoopFuel env n (fuel + 1) st).2).events =
      st.events ++ [.installCall n (upd st.comps n { st.comps n with status := .running })] := by
  simp only [retryLoopFuel, if_pos hrc]
  refine ⟨?_, ?_, ?_, ?_, ?_, ?_⟩
  · simp [hok]
  · simp [hok, upd_upd, callInstall]
  · simp [hok, callInstall]
  · intro m hm
    simp [hok, callInstall, hm]
  · simp [hok, callInstall]
  · simp [hok, callInstall]

/-- When every install invocation of `n` fails (falsy return or exception),
the retry wrapper fails, having called the install function once per unit
of remaining retry budget. -/
theorem retryLoopFuel_allFail (env : Env) (n : CompName) (fuel : Nat) (st : RunSt)
    (hfail : ∀ k, env.install n k ≠ .ok)
    (hfuel : (st.comps n).max_retries - (st.comps n).retry_count < fuel) :
    (retryLoopFuel env n fuel st).1 = false ∧
    ((retryLoopFuel env n fuel st).2).installCalls n =
      st.installCalls n + ((st.comps n).max_retries - (st.comps n).retry_count) := by
  induction fuel generalizing st with
  | zero => omega
  | succ f ih =>
      simp only [retryLoopFuel]
      split
      · rename_i hrc
        cases henv : env.install n (st.installCalls n) with
        | ok => exact absurd henv (hfail _)
        | fail =>
            simp only [callInstall_fst, doSave_installCalls, updComp_installCalls, henv]
            have key := ih
              (updComp (callInstall env n
                (doSave (updComp st n fun c => { c with status := .running }))).2 n
                fun c => { c with retry_count := c.retry_count + 1 })
              (by simp [upd_upd]; omega)
            refine ⟨key.1, ?_⟩
            rw [key.2]
            simp [upd_upd, callInstall]
            omega
        | exc msg =>
            simp only [callInstall_fst, doSave_installCalls, updComp_installCalls, henv]
            have key := ih
              (updComp (callInstall env n
                (doSave (updComp st n fun c => { c with status := .running }))).2 n
                fun c => { c with retry_count := c.retry_count + 1, error_msg := msg })
              (by simp [upd_upd]; omega)
            refine ⟨key.1, ?_⟩
            rw [key.2]
            simp [upd_upd, callInstall]
            omega
      · rename_i hrc
        refine ⟨by simp, ?_⟩
        have : (st.comps n).max_retries - (st.comps n).retry_count = 0 := by omega
        simp [this]

theorem retryOperation_repairCalls (env : Env) (n : CompName) (st : RunSt) :
    ((retryOperation env n st).2).repairCalls = st.repairCalls :=
  retryLoopFuel_repairCalls env n _ st

theorem retryOperation_comps_other (env : Env) (n : CompName) (st : RunSt)
    (m : CompName) (hm : m ≠ n) :
    ((retryOperation env n st).2).comps m = st.comps m :=
  retryLoopFuel_comps_other env n _ st m hm

theorem retryOperation_installCalls_other (env : Env) (n : CompName) (st : RunSt)
    (m : CompName) (hm : m ≠ n) :
    ((retryOperation env n st).2).installCalls m = st.installCalls m :=
  retryLoopFuel_installCalls_other env n _ st m hm

theorem retryOperation_false_failed (env : Env) (n : CompName) (st : RunSt)
    (h : (retryOperation env n st).1 = false) :
    (((retryOperation env n st).2).comps n).status = .failed :=
  retryLoopFuel_false_failed env n _ st h

theorem retryOperation_true_success (env : Env) (n : CompName) (st : RunSt)
    (h : (retryOperation env n st).1 = true) :
    (((retryOperation env n st).2).comps n).status = .success ∧
    (((retryOperation env n st).2).comps n).error_msg = "" :=
  retryLoopFuel_true_success env n _ st h

/-- `_retry_operation` when the component has retry budget left and its very
next install invocation succeeds. -/
theorem retryOperation_ok_step (env : Env) (n : CompName) (st : RunSt)
    (hrc : (st.comps n).retry_count < (st.comps n).max_retries)
    (hok : env.install n (st.installCalls n) = .ok) :
    (retryOperation env n st).1 = true ∧
    ((retryOperation env n st).2).comps =
      upd st.comps n { st.comps n with status := .success, error_msg := "" } ∧
    ((retryOperation env n st).2).installCalls n = st.installCalls n + 1 ∧
    (∀ m, m ≠ n → ((retryOperation env n st).2).installCalls m = st.installCalls m) ∧
    ((retryOperation env n st).2).repairCalls = st.repairCalls := by
  have h := retryLoopFuel_ok_step env n
    ((st.comps n).max_retries - (st.comps n).retry_count) st hrc hok
  exact ⟨h.1, h.2.1, h.2.2.1, h.2.2.2.1, h.2.2.2.2.1⟩

/-- `_retry_operation` when every install invocation of the component
fails: overall `False`, with one install call per unit of remaining retry
budget (`max_retries` calls for a fresh component). -/
theorem retryOperation_allFail (env : Env) (n : CompName) (st : RunSt)
    (hfail : ∀ k, env.install n k ≠ .ok) :
    (retryOperation env n st).1 = false ∧
    ((retryOperation env n st).2).installCalls n =
      st.installCalls n + ((st.comps n).max_retries - (st.comps n).retry_count) :=
  retryLoopFuel_allFail env n _ st hfail (Nat.lt_succ_self _)

/-! ## Lemmas about the pipeline loop -/

/-- Processing a list of components touches only the components in the
list: records, install counters and repair counters of any other component
are unchanged. -/
theorem installAllAux_frame (env : Env) (l : List CompName) (st : RunSt)
    (m : CompName) (hm : m ∉ l) :
    ((installAllAux env l st).2).comps m = st.comps m ∧
    ((installAllAux env l st).2).installCalls m = st.installCalls m ∧
    ((installAllAux env l st).2).repairCalls m = st.repairCalls m := by
  induction l generalizing st with
  | nil => exact ⟨rfl, rfl, rfl⟩
  | cons n rest ih =>
      have hmn : m ≠ n := fun h => hm (h ▸ List.mem_cons_self n rest)
      have hmrest : m ∉ rest := fun h => hm (List.mem_cons_of_mem n h)
      simp only [installAllAux]
      split
      · exact ih st hmrest
      · by_cases hok : (retryOperation env n st).1 = true
        · simp only [hok, if_true]
          obtain ⟨h1, h2, h3⟩ := ih ((retryOperation env n st).2) hmrest
          exact ⟨h1.trans (retryOperation_comps_other env n st m hmn),
                 h2.trans (retryOperation_installCalls_other env n st m hmn),
                 h3.trans (congrFun (retryOperation_repairCalls env n st) m)⟩
        · simp only [Bool.not_eq_true] at hok
          simp only [hok, Bool.false_eq_true, if_false]
          split
          · obtain ⟨h1, h2, h3⟩ :=
              ih ((attemptRepair env n (retryOperation env n st).2).2) hmrest
            refine ⟨?_, ?_, ?_⟩
            · rw [h1, attemptRepair_comps, retryOperation_comps_other env n st m hmn]
            · rw [h2, attemptRepair_installCalls,
                retryOperation_installCalls_other env n st m hmn]
            · rw [h3, attemptRepair_repairCalls_other env n _ m hmn,
                congrFun (retryOperation_repairCalls env n st) m]
          · refine ⟨?_, ?_, ?_⟩
            · rw [attemptRepair_comps, retryOperation_comps_other env n st m hmn]
            · rw [attemptRepair_installCalls,
                retryOperation_installCalls_other env n st m hmn]
            · rw [attemptRepair_repairCalls_other env n _ m hmn,
                congrFun (retryOperation_repairCalls env n st) m]

/-- When the pipeline loop over a duplicate-free list of components (whose
repair functions have not yet been invoked) returns `True`, every processed
component either ends `SUCCESS`, or ends `FAILED` with its repair function
having been invoked exactly once and having reported success. -/
theorem installAllAux_true_settled (env : Env) (l : List CompName) (st : RunSt)
    (hnd : l.Nodup)
    (hrc0 : ∀ n ∈ l, st.repairCalls n = 0)
    (htrue : (installAllAux env l st).1 = true) :
    ∀ n ∈ l,
      (((installAllAux env l st).2).comps n).status = .success ∨
      ((((installAllAux env l st).2).comps n).status = .failed ∧
       ((installAllAux env l st).2).repairCalls n = 1 ∧
       env.repair n 0 = true) := by
  induction l generalizing st with
  | nil => intro n hn; cases hn
  | cons c rest ih =>
      obtain ⟨hc_rest, hnd'⟩ := List.nodup_cons.mp hnd
      simp only [installAllAux] at htrue ⊢
      split at htrue
      · -- component already SUCCESS: skipped
        rename_i hskip
        rw [if_pos hskip]
        intro n hn
        rcases List.mem_cons.mp hn with rfl | hnrest
        · left
          rw [(installAllAux_frame env rest st n hc_rest).1]
          exact hskip
        · exact ih st hnd' (fun n' hn' => hrc0 n' (List.mem_cons_of_mem c hn')) htrue n hnrest
      · rename_i hskip
        rw [if_neg hskip]
        by_cases hok : (retryOperation env c st).1 = true
        · -- install (after retries) succeeded
          simp only [hok, if_true] at htrue ⊢
          intro n hn
          rcases List.mem_cons.mp hn with rfl | hnrest
          · left
            rw [(installAllAux_frame env rest _ n hc_rest).1]
            exact (retryOperation_true_success env n st hok).1
          · refine ih _ hnd' (fun n' hn' => ?_) htrue n hnrest
            rw [congrFun (retryOperation_repairCalls env c st) n']
            exact hrc0 n' (List.mem_cons_of_mem c hn')
        · simp only [Bool.not_eq_true] at hok
          simp only [hok, Bool.false_eq_true, if_false] at htrue ⊢
          split at htrue
          · -- repair reported success
            rename_i hrep
            rw [if_pos hrep]
            intro n hn
            rcases List.mem_cons.mp hn with rfl | hnrest
            · right
              have hrc_n : ((retryOperation env n st).2).repairCalls n = 0 := by
                rw [congrFun (retryOperation_repairCalls env n st) n]
                exact hrc0 n (List.mem_cons_self n rest)
              refine ⟨?_, ?_, ?_⟩
              · rw [(installAllAux_frame env rest _ n hc_rest).1, attemptRepair_comps]
                exact retryOperation_false_failed env n st hok
              · rw [(installAllAux_frame env rest _ n hc_rest).2.2,
                  attemptRepair_repairCalls_self, hrc_n]
              · rw [attemptRepair_fst, hrc_n] at hrep
                exact hrep
            · refine ih _ hnd' (fun n' hn' => ?_) htrue n hnrest
              have hn'c : n' ≠ c := fun h => hc_rest (h ▸ hn')
              rw [attemptRepair_repairCalls_other env c _ n' hn'c,
                congrFun (retryOperation_repairCalls env c st) n']
              exact hrc0 n' (List.mem_cons_of_mem c hn')
          · exact absurd htrue (by simp)

/-- One pipeline step: an already-successful component is skipped. -/
theorem installAllAux_cons_skip (env : Env) (n : CompName) (rest : List CompName)
    (st : RunSt) (hs : (st.comps n).status = .success) :
    installAllAux env (n :: rest) st = installAllAux env rest st := by
  simp only [installAllAux, if_pos hs]

/-- One pipeline step: the retry wrapper succeeds, the loop moves on. -/
theorem installAllAux_cons_ok (env : Env) (n : CompName) (rest : List CompName)
    (st : RunSt) (hns : ¬(st.comps n).status = .success)
    (hok : (retryOperation env n st).1 = true) :
    installAllAux env (n :: rest) st =
      installAllAux env rest (retryOperation env n st).2 := by
  simp only [installAllAux, if_neg hns, hok, if_true]

/-- One pipeline step: install fails but the repair reports success, the
loop moves on (without touching the component's `FAILED` status). -/
theorem installAllAux_cons_repaired (env : Env) (n : CompName) (rest : List CompName)
    (st : RunSt) (hns : ¬(st.comps n).status = .success)
    (hok : (retryOperation env n st).1 = false)
    (hrep : (attemptRepair env n (retryOperation env n st).2).1 = true) :
    installAllAux env (n :: rest) st =
      installAllAux env rest (attemptRepair env n (retryOperation env n st).2).2 := by
  simp only [installAllAux, if_neg hns, hok, Bool.false_eq_true, if_false, hrep, if_true]

/-- One pipeline step: install fails and the repair also fails, the whole
run aborts with `False`. -/
theorem installAllAux_cons_aborted (env : Env) (n : CompName) (rest : List CompName)
    (st : RunSt) (hns : ¬(st.comps n).status = .success)
    (hok : (retryOperation env n st).1 = false)
    (hrep : (attemptRepair env n (retryOperation env n st).2).1 = false) :
    installAllAux env (n :: rest) st =
      (false, (attemptRepair env n (retryOperation env n st).2).2) := by
  simp only [installAllAux, if_neg hns, hok, Bool.false_eq_true, if_false, hrep]

/-- Processing a still-fresh component (initial record, no install calls
yet) whose first install invocation succeeds: the loop moves on with the
component `SUCCESS`, one install call booked, and nothing else changed. -/
theorem installAllAux_step_fresh_ok (env : Env) (n : CompName) (rest : List CompName)
    (st : RunSt) (hcomp : st.comps n = initComponents n) (hic : st.installCalls n = 0)
    (hok : env.install n 0 = .ok) :
    installAllAux env (n :: rest) st = installAllAux env rest (retryOperation env n st).2 ∧
    (∀ m, m ≠ n → ((retryOperation env n st).2).comps m = st.comps m) ∧
    (((retryOperation env n st).2).comps n).status = .success ∧
    ((retryOperation env n st).2).installCalls n = 1 ∧
    (∀ m, m ≠ n → ((retryOperation env n st).2).installCalls m = st.installCalls m) ∧
    ((retryOperation env n st).2).repairCalls = st.repairCalls := by
  have hrc : (st.comps n).retry_count < (st.comps n).max_retries := by
    rw [hcomp]; cases n <;> decide
  have hok' : env.install n (st.installCalls n) = .ok := by rw [hic]; exact hok
  obtain ⟨h1, h2, h3, h4, h5⟩ := retryOperation_ok_step env n st hrc hok'
  have hns : ¬(st.comps n).status = .success := by
    rw [hcomp]; cases n <;> decide
  refine ⟨installAllAux_cons_ok env n rest st hns h1, ?_, ?_, ?_, h4, h5⟩
  · intro m hm
    rw [h2, upd_other _ _ _ _ hm]
  · rw [h2, upd_self]
  · rw [h3, hic]

/-- The components strictly before `c` in the fixed pipeline order. -/
def earlier (c : CompName) : List CompName :=
  pipelineOrder.takeWhile (fun c' => c' != c)

/-- Every trace event added by the retry wrapper for `n` is an install call
of `n`, made with every other component's record as it was on entry. -/
theorem retryLoopFuel_events (env : Env) (n : CompName) (fuel : Nat) (st : RunSt) :
    ∀ e ∈ ((retryLoopFuel env n fuel st).2).events,
      e ∈ st.events ∨
      ∃ pre, e = .installCall n pre ∧ ∀ m, m ≠ n → pre m = st.comps m := by
  induction fuel generalizing st with
  | zero => intro e he; exact Or.inl he
  | succ f ih =>
      by_cases hrc : (st.comps n).retry_count < (st.comps n).max_retries
      · simp only [retryLoopFuel, if_pos hrc]
        cases henv : env.install n (st.installCalls n) with
        | ok =>
            intro e he
            simp only [callInstall_fst, doSave_installCalls, updComp_installCalls, henv,
              doSave_events, updComp_events, callInstall_events, doSave_comps,
              updComp_comps, List.mem_append, List.mem_singleton] at he
            rcases he with he | rfl
            · exact Or.inl he
            · exact Or.inr ⟨_, rfl, fun m hm => upd_other _ _ _ _ hm⟩
        | fail =>
            intro e he
            simp only [callInstall_fst, doSave_installCalls, updComp_installCalls, henv] at he
            rcases ih _ e he with hin | ⟨pre, rfl, hpre⟩
            · simp only [updComp_events, callInstall_events, doSave_events,
                List.mem_append, List.mem_singleton, doSave_comps, updComp_comps] at hin
              rcases hin with hin | rfl
              · exact Or.inl hin
              · exact Or.inr ⟨_, rfl, fun m hm => upd_other _ _ _ _ hm⟩
            · refine Or.inr ⟨pre, rfl, fun m hm => ?_⟩
              rw [hpre m hm]
              simp [hm]
        | exc msg =>
            intro e he
            simp only [callInstall_fst, doSave_installCalls, updComp_installCalls, henv] at he
            rcases ih _ e he with hin | ⟨pre, rfl, hpre⟩
            · simp only [updComp_events, callInstall_events, doSave_events,
                List.mem_append, List.mem_singleton, doSave_comps, updComp_comps] at hin
              rcases hin with hin | rfl
              · exact Or.inl hin
              · exact Or.inr ⟨_, rfl, fun m hm => upd_other _ _ _ _ hm⟩
            · refine Or.inr ⟨pre, rfl, fun m hm => ?_⟩
              rw [hpre m hm]
              simp [hm]
      · simp only [retryLoopFuel, if_neg hrc]
        intro e he
        exact Or.inl he

/-- In a split `done ++ n :: rest` of the concrete pipeline order, the
components before `n` are exactly `done`, and `n` is not among them. -/
theorem earlier_of_split :
    ∀ (done : List CompName) (n : CompName) (rest : List CompName),
      done ++ n :: rest = pipelineOrder → earlier n = done ∧ n ∉ done
  | [], n, rest, h => by
      simp only [pipelineOrder, List.nil_append, List.cons.injEq] at h
      obtain ⟨rfl, -⟩ := h
      exact ⟨rfl, by decide⟩
  | [a], n, rest, h => by
      simp only [pipelineOrder, List.cons_append, List.nil_append, List.cons.injEq] at h
      obtain ⟨rfl, rfl, -⟩ := h
      exact ⟨rfl, by decide⟩
  | [a, b], n, rest, h => by
      simp only [pipelineOrder, List.cons_append, List.nil_append, List.cons.injEq] at h
      obtain ⟨rfl, rfl, rfl, -⟩ := h
      exact ⟨rfl, by decide⟩
  | [a, b, c], n, rest, h => by
      simp only [pipelineOrder, List.cons_append, List.nil_append, List.cons.injEq] at h
      obtain ⟨rfl, rfl, rfl, rfl, -⟩ := h
      exact ⟨rfl, by decide⟩
  | [a, b, c, d], n, rest, h => by
      simp only [pipelineOrder, List.cons_append, List.nil_append, List.cons.injEq] at h
      obtain ⟨rfl, rfl, rfl, rfl, rfl, -⟩ := h
      exact ⟨rfl, by decide⟩
  | [a, b, c, d, e], n, rest, h => by
      simp only [pipelineOrder, List.cons_append, List.nil_append, List.cons.injEq] at h
      obtain ⟨rfl, rfl, rfl, rfl, rfl, rfl, -⟩ := h
      exact ⟨rfl, by decide⟩
  | a :: b :: c :: d :: e :: f :: g :: t, n, rest, h => by
      simp [pipelineOrder] at h

/-- An event respects the pipeline-order discipline when, if it is an
install invocation of component `c`, every component before `c` in the
fixed order was (at the moment of the call) either `SUCCESS` or `FAILED`. -/
def eventSettled (e : Event) : Prop :=
  match e with
  | .installCall c pre =>
      ∀ c' ∈ earlier c, (pre c').status = .success ∨ (pre c').status = .failed
  | .repairCall _ _ => True

/-- The pipeline loop only ever invokes a component's install function when
every pipeline-earlier component is `SUCCESS` or `FAILED` (given that this
held for the already-processed components and the pre-existing trace). -/
theorem installAllAux_events_settled (env : Env) (l : List CompName) :
    ∀ (done : List CompName) (st : RunSt),
      done ++ l = pipelineOrder →
      (∀ c' ∈ done, (st.comps c').status = .success ∨ (st.comps c').status = .failed) →
      (∀ e ∈ st.events, eventSettled e) →
      ∀ e ∈ ((installAllAux env l st).2).events, eventSettled e := by
  induction l with
  | nil => intro done st _ _ hev e he; exact hev e he
  | cons n rest ih =>
      intro done st hsplit hdone hev
      obtain ⟨hearl, hnotdone⟩ := earlier_of_split done n rest hsplit
      have hsplit' : (done ++ [n]) ++ rest = pipelineOrder := by
        simpa [List.append_assoc] using hsplit
      -- events produced while the retry wrapper processes `n` are settled
      have hretry_ev : ∀ e ∈ ((retryOperation env n st).2).events, eventSettled e := by
        intro e he
        rcases retryLoopFuel_events env n _ st e he with hin | ⟨pre, rfl, hpre⟩
        · exact hev e hin
        · intro c' hc'
          rw [hearl] at hc'
          have hc'n : c' ≠ n := fun h => hnotdone (h ▸ hc')
          rw [hpre c' hc'n]
          exact hdone c' hc'
      have hretry_done : ∀ b, (retryOperation env n st).1 = b →
          ∀ c' ∈ done, (((retryOperation env n st).2).comps c').status = .success ∨
            (((retryOperation env n st).2).comps c').status = .failed := by
        intro _ _ c' hc'
        have hc'n : c' ≠ n := fun h => hnotdone (h ▸ hc')
        rw [retryOperation_comps_other env n st c' hc'n]
        exact hdone c' hc'
      simp only [installAllAux]
      split
      · rename_i hskip
        refine ih (done ++ [n]) st hsplit' ?_ hev
        intro c' hc'
        rcases List.mem_append.mp hc' with h | h
        · exact hdone c' h
        · rw [List.mem_singleton.mp h]
          exact Or.inl hskip
      · by_cases hok : (retryOperation env n st).1 = true
        · simp only [hok, if_true]
          refine ih (done ++ [n]) _ hsplit' ?_ hretry_ev
          intro c' hc'
          rcases List.mem_append.mp hc' with h | h
          · exact hretry_done true hok c' h
          · rw [List.mem_singleton.mp h]
            exact Or.inl (retryOperation_true_success env n st hok).1
        · simp only [Bool.not_eq_true] at hok
          simp only [hok, Bool.false_eq_true, if_false]
          have hrep_ev : ∀ e ∈ ((attemptRepair env n (retryOperation env n st).2).2).events,
              eventSettled e := by
            intro e he
            simp only [attemptRepair_events, List.mem_append, List.mem_singleton] at he
            rcases he with he | rfl
            · exact hretry_ev e he
            · trivial
          split
          · refine ih (done ++ [n]) _ hsplit' ?_ hrep_ev
            intro c' hc'
            rcases List.mem_append.mp hc' with h | h
            · rw [attemptRepair_comps]
              exact hretry_done false hok c' h
            · rw [List.mem_singleton.mp h, attemptRepair_comps]
              exact Or.inr (retryOperation_false_failed env n st hok)
          · exact hrep_ev

/-! ## Claim theorems -/

/-- C7: for any behaviour of the stage functions in which `system_check`
succeeds at once, every install invocation of `dependencies` fails (falsy
return or exception) and its repair reports failure, `install_all` invokes
the `dependencies` install function exactly `max_retries = 3` times and its
repair function exactly once, records `dependencies` as `FAILED`, returns
`False`, and invokes no install or repair function of any later component
(which all stay `PENDING`). -/
theorem retry_bound_then_single_repair_then_halt (env : Env)
    (hsc : env.install .system_check 0 = .ok)
    (hdep : ∀ k, env.install .dependencies k ≠ .ok)
    (hrep : env.repair .dependencies 0 = false) :
    (installAll env (freshRunSt .absent)).1 = false ∧
    ((installAll env (freshRunSt .absent)).2).installCalls .dependencies = 3 ∧
    ((installAll env (freshRunSt .absent)).2).repairCalls .dependencies = 1 ∧
    (((installAll env (freshRunSt .absent)).2).comps .dependencies).status = .failed ∧
    ((installAll env (freshRunSt .absent)).2).installCalls .system_check = 1 ∧
    ((installAll env (freshRunSt .absent)).2).installCalls .pcie_driver = 0 ∧
    ((installAll env (freshRunSt .absent)).2).installCalls .hailort = 0 ∧
    ((installAll env (freshRunSt .absent)).2).installCalls .docker_config = 0 ∧
    ((installAll env (freshRunSt .absent)).2).installCalls .validation = 0 ∧
    ((installAll env (freshRunSt .absent)).2).repairCalls .system_check = 0 ∧
    ((installAll env (freshRunSt .absent)).2).repairCalls .pcie_driver = 0 ∧
    ((installAll env (freshRunSt .absent)).2).repairCalls .hailort = 0 ∧
    ((installAll env (freshRunSt .absent)).2).repairCalls .docker_config = 0 ∧
    ((installAll env (freshRunSt .absent)).2).repairCalls .validation = 0 ∧
    (((installAll env (freshRunSt .absent)).2).comps .pcie_driver).status = .pending ∧
    (((installAll env (freshRunSt .absent)).2).comps .hailort).status = .pending ∧
    (((installAll env (freshRunSt .absent)).2).comps .docker_config).status = .pending ∧
    (((installAll env (freshRunSt .absent)).2).comps .validation).status = .pending := by
  -- step 1: system_check succeeds on its first invocation
  have hns0 : ¬(((freshRunSt .absent).comps .system_check).status = .success) := by decide
  have hrc0 : ((freshRunSt .absent).comps .system_check).retry_count <
      ((freshRunSt .absent).comps .system_check).max_retries := by decide
  obtain ⟨s1_ok, s1_comps, s1_ic_self, s1_ic_other, s1_rc⟩ :=
    retryOperation_ok_step env .system_check (freshRunSt .absent) hrc0 hsc
  set st1 := (retryOperation env .system_check (freshRunSt .absent)).2 with hst1
  have e1 : installAll env (freshRunSt .absent) =
      installAllAux env [.dependencies, .pcie_driver, .hailort, .docker_config, .validation] st1 := by
    simp only [installAll]
    rw [show pipelineOrder = .system_check ::
      [CompName.dependencies, .pcie_driver, .hailort, .docker_config, .validation] from rfl]
    exact installAllAux_cons_ok env _ _ _ hns0 s1_ok
  have hdep_comp : st1.comps .dependencies = initComponents .dependencies := by
    rw [s1_comps, upd_other _ _ _ _ (by decide)]
    rfl
  have hic1_dep : st1.installCalls .dependencies = 0 := by
    rw [s1_ic_other .dependencies (by decide)]
    rfl
  have hrc1 : ∀ m, st1.repairCalls m = 0 := by
    intro m
    rw [congrFun s1_rc m]
    rfl
  -- step 2: dependencies exhausts its retry budget, repair fails, abort
  have hns1 : ¬((st1.comps .dependencies).status = .success) := by
    rw [hdep_comp]; decide
  obtain ⟨s2_false, s2_ic⟩ := retryOperation_allFail env .dependencies st1 hdep
  set st2 := (retryOperation env .dependencies st1).2 with hst2
  have hic2_dep : st2.installCalls .dependencies = 3 := by
    rw [s2_ic, hdep_comp, hic1_dep]
    decide
  have hrc2 : ∀ m, st2.repairCalls m = 0 := by
    intro m
    rw [hst2, congrFun (retryOperation_repairCalls env .dependencies st1) m]
    exact hrc1 m
  have s2_failed : (st2.comps .dependencies).status = .failed :=
    retryOperation_false_failed env .dependencies st1 s2_false
  have hrepF : (attemptRepair env .dependencies st2).1 = false := by
    rw [attemptRepair_fst, hrc2 .dependencies]
    exact hrep
  have e2 : installAll env (freshRunSt .absent) =
      (false, (attemptRepair env .dependencies st2).2) := by
    rw [e1]
    exact installAllAux_cons_aborted env _ _ st1 hns1 s2_false hrepF
  set stF := (attemptRepair env .dependencies st2).2 with hstF
  -- projections of the final state
  have hF_comps_dep : stF.comps .dependencies = st2.comps .dependencies := by
    rw [hstF, attemptRepair_comps]
  have hF_comps_other : ∀ m, m ≠ CompName.dependencies → m ≠ CompName.system_check →
      stF.comps m = initComponents m := by
    intro m h1 h2
    rw [hstF, attemptRepair_comps, hst2,
      retryOperation_comps_other env .dependencies st1 m h1,
      s1_comps, upd_other _ _ _ _ h2]
    rfl
  have hF_ic_dep : stF.installCalls .dependencies = 3 := by
    rw [hstF, attemptRepair_installCalls]
    exact hic2_dep
  have hF_ic_sc : stF.installCalls .system_check = 1 := by
    rw [hstF, attemptRepair_installCalls, hst2,
      retryOperation_installCalls_other env .dependencies st1 .system_check (by decide),
      s1_ic_self]
    rfl
  have hF_ic_other : ∀ m, m ≠ CompName.dependencies → m ≠ CompName.system_check →
      stF.installCalls m = 0 := by
    intro m h1 h2
    rw [hstF, attemptRepair_installCalls, hst2,
      retryOperation_installCalls_other env .dependencies st1 m h1,
      s1_ic_other m h2]
    rfl
  have hF_rc_dep : stF.repairCalls .dependencies = 1 := by
    rw [hstF, attemptRepair_repairCalls_self, hrc2 .dependencies]
  have hF_rc_other : ∀ m, m ≠ CompName.dependencies → stF.repairCalls m = 0 := by
    intro m h1
    rw [hstF, attemptRepair_repairCalls_other env _ _ m h1]
    exact hrc2 m
  rw [e2]
  refine ⟨rfl, hF_ic_dep, hF_rc_dep, hF_comps_dep ▸ s2_failed, hF_ic_sc,
    hF_ic_other _ (by decide) (by decide), hF_ic_other _ (by decide) (by decide),
    hF_ic_other _ (by decide) (by decide), hF_ic_other _ (by decide) (by decide),
    hF_rc_other _ (by decide), hF_rc_other _ (by decide), hF_rc_other _ (by decide),
    hF_rc_other _ (by decide), hF_rc_other _ (by decide),
    ?_, ?_, ?_, ?_⟩ <;>
  · rw [hF_comps_other _ (by decide) (by decide)]
    rfl

/-- C1 (amended): when `pcie_driver`'s install always fails but its repair
reports success (and every other stage succeeds at the first attempt),
`install_all` proceeds past `pcie_driver` — the `hailort` install function
is invoked — and returns `True`; but the recorded status of `pcie_driver`
stays `FAILED` (it is never set to `SUCCESS` or `RECOVERED`: the repair
path of `install_all` / `_attempt_repair` does not update the status). -/
theorem repaired_component_keeps_failed_status (env : Env)
    (hsc : env.install .system_check 0 = .ok)
    (hdep : env.install .dependencies 0 = .ok)
    (hpcie : ∀ k, env.install .pcie_driver k ≠ .ok)
    (hprep : env.repair .pcie_driver 0 = true)
    (hhl : env.install .hailort 0 = .ok)
    (hdc : env.install .docker_config 0 = .ok)
    (hvl : env.install .validation 0 = .ok) :
    (installAll env (freshRunSt .absent)).1 = true ∧
    (((installAll env (freshRunSt .absent)).2).comps .pcie_driver).status = .failed ∧
    ((installAll env (freshRunSt .absent)).2).repairCalls .pcie_driver = 1 ∧
    ((installAll env (freshRunSt .absent)).2).installCalls .pcie_driver = 3 ∧
    ((installAll env (freshRunSt .absent)).2).installCalls .hailort = 1 := by
  -- step 1: system_check
  obtain ⟨e1', c1, _, _, i1, r1⟩ :=
    installAllAux_step_fresh_ok env .system_check
      [.dependencies, .pcie_driver, .hailort, .docker_config, .validation]
      (freshRunSt .absent) rfl rfl hsc
  set st1 := (retryOperation env .system_check (freshRunSt .absent)).2 with hst1
  have e1 : installAll env (freshRunSt .absent) =
      installAllAux env [.dependencies, .pcie_driver, .hailort, .docker_config, .validation] st1 := by
    simp only [installAll]
    rw [show pipelineOrder = .system_check ::
      [CompName.dependencies, .pcie_driver, .hailort, .docker_config, .validation] from rfl]
    exact e1'
  have inv1c : ∀ m, m ≠ CompName.system_check → st1.comps m = initComponents m := by
    intro m hm; rw [c1 m hm]; rfl
  have inv1i : ∀ m, m ≠ CompName.system_check → st1.installCalls m = 0 := by
    intro m hm; rw [i1 m hm]; rfl
  have inv1r : ∀ m, st1.repairCalls m = 0 := by
    intro m; rw [congrFun r1 m]; rfl
  -- step 2: dependencies
  obtain ⟨e2', c2, _, _, i2, r2⟩ :=
    installAllAux_step_fresh_ok env .dependencies
      [.pcie_driver, .hailort, .docker_config, .validation] st1
      (inv1c _ (by decide)) (inv1i _ (by decide)) hdep
  set st2 := (retryOperation env .dependencies st1).2 with hst2
  have e2 : installAll env (freshRunSt .absent) =
      installAllAux env [.pcie_driver, .hailort, .docker_config, .validation] st2 :=
    e1.trans e2'
  have inv2c : ∀ m, m ≠ CompName.system_check → m ≠ CompName.dependencies →
      st2.comps m = initComponents m := by
    intro m h1 h2; rw [c2 m h2]; exact inv1c m h1
  have inv2i : ∀ m, m ≠ CompName.system_check → m ≠ CompName.dependencies →
      st2.installCalls m = 0 := by
    intro m h1 h2; rw [i2 m h2]; exact inv1i m h1
  have inv2r : ∀ m, st2.repairCalls m = 0 := by
    intro m; rw [congrFun r2 m]; exact inv1r m
  -- step 3: pcie_driver fails out its retry budget, repair reports success
  have hns3 : ¬((st2.comps .pcie_driver).status = .success) := by
    rw [inv2c _ (by decide) (by decide)]; decide
  obtain ⟨s3_false, s3_ic⟩ := retryOperation_allFail env .pcie_driver st2 hpcie
  set st3 := (retryOperation env .pcie_driver st2).2 with hst3
  have h3_failed : (st3.comps .pcie_driver).status = .failed :=
    retryOperation_false_failed env .pcie_driver st2 s3_false
  have h3_ic_pc : st3.installCalls .pcie_driver = 3 := by
    rw [s3_ic, inv2c _ (by decide) (by decide), inv2i _ (by decide) (by decide)]
    decide
  have h3_r : ∀ m, st3.repairCalls m = 0 := by
    intro m
    rw [hst3, congrFun (retryOperation_repairCalls env .pcie_driver st2) m]
    exact inv2r m
  have hrep3 : (attemptRepair env .pcie_driver st3).1 = true := by
    rw [attemptRepair_fst, h3_r .pcie_driver]
    exact hprep
  have e3 : installAll env (freshRunSt .absent) =
      installAllAux env [.hailort, .docker_config, .validation]
        (attemptRepair env .pcie_driver st3).2 :=
    e2.trans (installAllAux_cons_repaired env .pcie_driver _ st2 hns3 s3_false hrep3)
  set st4 := (attemptRepair env .pcie_driver st3).2 with hst4
  have inv4c : ∀ m, m ≠ CompName.system_check → m ≠ CompName.dependencies →
      m ≠ CompName.pcie_driver → st4.comps m = initComponents m := by
    intro m h1 h2 h3
    rw [hst4, attemptRepair_comps, hst3,
      retryOperation_comps_other env .pcie_driver st2 m h3]
    exact inv2c m h1 h2
  have inv4i : ∀ m, m ≠ CompName.system_check → m ≠ CompName.dependencies →
      m ≠ CompName.pcie_driver → st4.installCalls m = 0 := by
    intro m h1 h2 h3
    rw [hst4, attemptRepair_installCalls, hst3,
      retryOperation_installCalls_other env .pcie_driver st2 m h3]
    exact inv2i m h1 h2
  have h4_pc_status : (st4.comps .pcie_driver).status = .failed := by
    rw [hst4, attemptRepair_comps]
    exact h3_failed
  have h4_pc_ic : st4.installCalls .pcie_driver = 3 := by
    rw [hst4, attemptRepair_installCalls]
    exact h3_ic_pc
  have h4_pc_rc : st4.repairCalls .pcie_driver = 1 := by
    rw [hst4, attemptRepair_repairCalls_self, h3_r .pcie_driver]
  -- step 4: hailort
  obtain ⟨e4', c4, _, hl_ic, i4, r4⟩ :=
    installAllAux_step_fresh_ok env .hailort [.docker_config, .validation] st4
      (inv4c _ (by decide) (by decide) (by decide))
      (inv4i _ (by decide) (by decide) (by decide)) hhl
  set st5 := (retryOperation env .hailort st4).2 with hst5
  have e4 : installAll env (freshRunSt .absent) =
      installAllAux env [.docker_config, .validation] st5 := e3.trans e4'
  have inv5c : ∀ m, m ≠ CompName.system_check → m ≠ CompName.dependencies →
      m ≠ CompName.pcie_driver → m ≠ CompName.hailort → st5.comps m = initComponents m := by
    intro m h1 h2 h3 h4
    rw [c4 m h4]; exact inv4c m h1 h2 h3
  have inv5i : ∀ m, m ≠ CompName.system_check → m ≠ CompName.dependencies →
      m ≠ CompName.pcie_driver → m ≠ CompName.hailort → st5.installCalls m = 0 := by
    intro m h1 h2 h3 h4
    rw [i4 m h4]; exact inv4i m h1 h2 h3
  have h5_pc_status : (st5.comps .pcie_driver).status = .failed := by
    rw [c4 _ (by decide)]; exact h4_pc_status
  have h5_pc_ic : st5.installCalls .pcie_driver = 3 := by
    rw [i4 _ (by decide)]; exact h4_pc_ic
  have h5_pc_rc : st5.repairCalls .pcie_driver = 1 := by
    rw [congrFun r4 .pcie_driver]; exact h4_pc_rc
  have h5_hl_ic : st5.installCalls .hailort = 1 := hl_ic
  -- step 5: docker_config
  obtain ⟨e5', c5, _, _, i5, r5⟩ :=
    installAllAux_step_fresh_ok env .docker_config [.validation] st5
      (inv5c _ (by decide) (by decide) (by decide) (by decide))
      (inv5i _ (by decide) (by decide) (by decide) (by decide)) hdc
  set st6 := (retryOperation env .docker_config st5).2 with hst6
  have e5 : installAll env (freshRunSt .absent) =
      installAllAux env [.validation] st6 := e4.trans e5'
  have inv6c : st6.comps .validation = initComponents .validation := by
    rw [c5 _ (by decide)]
    exact inv5c _ (by decide) (by decide) (by decide) (by decide)
  have inv6i : st6.installCalls .validation = 0 := by
    rw [i5 _ (by decide)]
    exact inv5i _ (by decide) (by decide) (by decide) (by decide)
  have h6_pc_status : (st6.comps .pcie_driver).status = .failed := by
    rw [c5 _ (by decide)]; exact h5_pc_status
  have h6_pc_ic : st6.installCalls .pcie_driver = 3 := by
    rw [i5 _ (by decide)]; exact h5_pc_ic
  have h6_pc_rc : st6.repairCalls .pcie_driver = 1 := by
    rw [congrFun r5 .pcie_driver]; exact h5_pc_rc
  have h6_hl_ic : st6.installCalls .hailort = 1 := by
    rw [i5 _ (by decide)]; exact h5_hl_ic
  -- step 6: validation
  obtain ⟨e6', c6, _, _, i6, r6⟩ :=
    installAllAux_step_fresh_ok env .validation [] st6 inv6c inv6i hvl
  set st7 := (retryOperation env .validation st6).2 with hst7
  have e6 : installAll env (freshRunSt .absent) = (true, st7) :=
    (e5.trans e6').trans rfl
  rw [e6]
  refine ⟨rfl, ?_, ?_, ?_, ?_⟩
  · rw [c6 _ (by decide)]; exact h6_pc_status
  · rw [congrFun r6 .pcie_driver]; exact h6_pc_rc
  · rw [i6 _ (by decide)]; exact h6_pc_ic
  · rw [i6 _ (by decide)]; exact h6_hl_ic

/-! ## Concrete scenario environments and states -/

/-- Every stage function succeeds immediately (the "all commands mocked to
succeed" scenario). -/
def envAllOk : Env := { install := fun _ _ => .ok, repair := fun _ _ => true }

/-- `pcie_driver` install always fails, every repair reports success, every
other stage succeeds immediately. -/
def envPcieRepair : Env :=
  { install := fun n _ => match n with | .pcie_driver => .fail | _ => .ok
    repair := fun _ _ => true }

/-- `dependencies` install always fails and every repair fails; other
stages succeed immediately. -/
def envDepsAlwaysFail : Env :=
  { install := fun n _ => match n with | .dependencies => .fail | _ => .ok
    repair := fun _ _ => false }

/-- `system_check` install always fails, every repair reports success,
other stages succeed immediately. -/
def envSysCheckFail : Env :=
  { install := fun n _ => match n with | .system_check => .fail | _ => .ok
    repair := fun _ _ => true }

/-- The in-memory component map at the moment the first component
(`system_check`) was recorded `SUCCESS`. -/
def compsAfterFirstSuccess : Components :=
  upd initComponents .system_check { initComponents .system_check with status := .success }

/-- A component map with non-default status, retry count and error message
on `system_check` (what the orchestrator would hold after one failed and
one successful attempt elsewhere). -/
def m6 : Components :=
  upd initComponents .system_check
    { initComponents .system_check with
        status := .success, retry_count := 1, error_msg := "dpkg error" }

/-- The second trace event of an all-success run: the invocation of the
`dependencies` install function. -/
def eventAtDependencies : Event :=
  ((installAll envAllOk (freshRunSt .absent)).2).events.get ⟨1, by decide⟩

/-- The component map recorded by `eventAtDependencies`: the map at the
moment the `dependencies` install function was invoked (`system_check`
already `SUCCESS`, `dependencies` marked `RUNNING`). -/
def preW : Components :=
  match eventAtDependencies with
  | .installCall _ pre => pre
  | .repairCall _ _ => initComponents

/-- `true` on an event that refutes the literal ordering claim: an install
invocation of `dependencies` made while `system_check` is `FAILED`. -/
def installCallWithFailedEarlier (e : Event) : Bool :=
  match e with
  | .installCall .dependencies pre => (pre .system_check).status == .failed
  | _ => false

/-! ## C1 -/

/-- C1 (counterexample): with `pcie_driver` mocked to always fail and its
repair mocked to succeed (all other stages succeeding), the pipeline does
proceed to `hailort` — but `pcie_driver`'s final recorded status is *not*
`SUCCESS` as the claim states; it stays `FAILED`. -/
theorem c1_counterexample :
    (((installAll envPcieRepair (freshRunSt .absent)).2).comps .pcie_driver).status ≠
      InstallStatus.success ∧
    (((installAll envPcieRepair (freshRunSt .absent)).2).comps .pcie_driver).status =
      InstallStatus.failed ∧
    ((installAll envPcieRepair (freshRunSt .absent)).2).installCalls .hailort = 1 := by
  decide

/-- C1 (witness for the amended theorem): the amended statement holds at
the concrete mocked environment of the scenario. -/
theorem c1_amended_witness :
    (installAll envPcieRepair (freshRunSt .absent)).1 = true ∧
    (((installAll envPcieRepair (freshRunSt .absent)).2).comps .pcie_driver).status =
      InstallStatus.failed ∧
    ((installAll envPcieRepair (freshRunSt .absent)).2).installCalls .hailort = 1 := by
  have h := repaired_component_keeps_failed_status envPcieRepair rfl rfl
    (fun k => by simp [envPcieRepair]) rfl rfl rfl rfl
  exact ⟨h.1, h.2.1, h.2.2.2.2⟩

/-! ## C2 -/

/-- C2: `_save_state` is indeed called after every `RUNNING`/`SUCCESS`/
`FAILED` transition, but it can never write a well-formed JSON document:
`dataclasses.asdict` leaves the `type`/`status` `Enum` members in the
document, the default `json.dump` encoder raises `TypeError` on them
mid-stream, the exception is swallowed, and the truncated file is not valid
JSON — for every component map whatsoever. -/
theorem saveState_always_truncated (cs : Components) (ts : Int) (dir : String) :
    saveState cs ts dir = FileContent.truncatedFile ∧
    jsonSerializable (stateDataPyVal cs ts dir) = false :=
  ⟨rfl, rfl⟩

/-! ## C3 -/

/-- C3 (code bug): kill the first run just after `system_check` reached
`SUCCESS` (the state file then holds what `_save_state` wrote for that
map); a freshly constructed orchestrator fails to load the truncated file,
falls back to all-`PENDING`, and `install_all` invokes `system_check`'s
install function again — the claim requires it to be skipped. -/
theorem resumed_run_reinstalls_completed_component :
    ((freshRunSt (saveState compsAfterFirstSuccess 0 installDirDefault)).comps
        .system_check).status = InstallStatus.pending ∧
    ((installAll envAllOk
        (freshRunSt (saveState compsAfterFirstSuccess 0 installDirDefault))).2).installCalls
        .system_check = 1 := by
  decide

/-! ## C4 -/

/-- C4 (counterexample): `install_all` returns `True` in a run whose
`pcie_driver` component has final status `FAILED` (install failed, repair
reported success but the status is never updated), refuting "whenever
install_all returns true, no component's final status is Failed". -/
theorem c4_counterexample :
    (installAll envPcieRepair (freshRunSt .absent)).1 = true ∧
    (((installAll envPcieRepair (freshRunSt .absent)).2).comps .pcie_driver).status =
      InstallStatus.failed := by
  decide

/-- C4 (amended): `install_all` returns `True` only if every component
either reached `SUCCESS`, or ended `FAILED` with its repair function having
been invoked exactly once and having reported success (the repaired
component's recorded status remains `FAILED`). -/
theorem installAll_true_every_component_settled (env : Env) (file : FileContent)
    (h : (installAll env (freshRunSt file)).1 = true) :
    ∀ n : CompName,
      (((installAll env (freshRunSt file)).2).comps n).status = .success ∨
      ((((installAll env (freshRunSt file)).2).comps n).status = .failed ∧
       ((installAll env (freshRunSt file)).2).repairCalls n = 1 ∧
       env.repair n 0 = true) :=
  fun n =>
    installAllAux_true_settled env pipelineOrder (freshRunSt file) (by decide)
      (fun _ _ => rfl) h n (by cases n <;> decide)

/-- C4 (witness): the amended statement at the all-success environment. -/
theorem installAll_true_every_component_settled_witness :
    (((installAll envAllOk (freshRunSt .absent)).2).comps .system_check).status = .success ∨
    ((((installAll envAllOk (freshRunSt .absent)).2).comps .system_check).status = .failed ∧
     ((installAll envAllOk (freshRunSt .absent)).2).repairCalls .system_check = 1 ∧
     envAllOk.repair .system_check 0 = true) :=
  installAll_true_every_component_settled envAllOk .absent (by decide) .system_check

/-! ## C5 -/

/-- C5 (counterexample): when `system_check` exhausts its retries and is
"repaired", the pipeline invokes the `dependencies` install function while
`system_check`'s status is `FAILED` — an earlier component with a status
other than `SUCCESS`, refuting the literal invariant. -/
theorem c5_counterexample :
    ((installAll envSysCheckFail (freshRunSt .absent)).2).events.any
      installCallWithFailedEarlier = true := by
  decide

/-- C5 (amended): in every run of `install_all` from a fresh orchestrator,
a component's install function is only ever invoked while every
pipeline-earlier component's status is `SUCCESS` or `FAILED` (`FAILED`
occurs exactly for components whose repair reported success, since the
pipeline otherwise halts). -/
theorem install_invoked_only_after_earlier_settled (env : Env) (e : Event)
    (he : e ∈ ((installAll env (freshRunSt .absent)).2).events) :
    eventSettled e :=
  installAllAux_events_settled env pipelineOrder [] (freshRunSt .absent) rfl
    (by simp) (fun e' he' => absurd he' (List.not_mem_nil e')) e he

/-- C5 (witness): the amended statement applied at the all-success run, at
the recorded invocation of `dependencies`, for the earlier component
`system_check`. -/
theorem install_invoked_only_after_earlier_settled_witness :
    (preW .system_check).status = InstallStatus.success ∨
    (preW .system_check).status = InstallStatus.failed :=
  install_invoked_only_after_earlier_settled envAllOk
    (.installCall .dependencies preW)
    (((installAll envAllOk (freshRunSt .absent)).2).events.get_mem 1 (by decide))
    .system_check (by decide)

/-! ## C6 -/

/-- C6 (code bug): saving a component map whose `system_check` is
`SUCCESS` with `retry_count = 1` and a non-empty `error_msg`, then loading
the state file back, does not reproduce the statuses/counters/messages:
the save is truncated (json.dump raises on the `Enum` members), the load
falls back to the freshly initialised components, and `system_check` comes
back `PENDING` with `retry_count = 0` and an empty `error_msg`. -/
theorem roundtrip_loses_state :
    (m6 .system_check).status = InstallStatus.success ∧
    ((loadState (saveState m6 0 installDirDefault) initComponents) .system_check).status =
      InstallStatus.pending ∧
    (m6 .system_check).retry_count = 1 ∧
    ((loadState (saveState m6 0 installDirDefault) initComponents) .system_check).retry_count
      = 0 ∧
    (m6 .system_check).error_msg = "dpkg error" ∧
    ((loadState (saveState m6 0 installDirDefault) initComponents) .system_check).error_msg
      = "" := by
  decide

/-! ## C7 (witness) -/

/-- C7 (witness): the retry-bound statement at the concrete mocked
environment in which `dependencies` always fails and its repair fails. -/
theorem retry_bound_then_single_repair_then_halt_witness :
    (installAll envDepsAlwaysFail (freshRunSt .absent)).1 = false ∧
    ((installAll envDepsAlwaysFail (freshRunSt .absent)).2).installCalls .dependencies = 3 ∧
    ((installAll envDepsAlwaysFail (freshRunSt .absent)).2).repairCalls .dependencies = 1 ∧
    (((installAll envDepsAlwaysFail (freshRunSt .absent)).2).comps .pcie_driver).status =
      InstallStatus.pending := by
  have h := retry_bound_then_single_repair_then_halt envDepsAlwaysFail rfl
    (fun k => by simp [envDepsAlwaysFail]) rfl
  exact ⟨h.1, h.2.1, h.2.2.1, h.2.2.2.2.2.2.2.2.2.2.2.2.2.2.1⟩

/-! ## C8 -/

/-- C8: after `rollback_installation`, every component's status is
`PENDING` with empty `error_msg` and `retry_count = 0`, whatever the
components held before and whatever the five shell commands did. -/
theorem rollback_resets_all_components (st : RunSt) (outs : Fin 5 → CmdOutcome)
    (n : CompName) :
    (((rollbackInstallation st outs).2).comps n).status = InstallStatus.pending ∧
    (((rollbackInstallation st outs).2).comps n).error_msg = "" ∧
    (((rollbackInstallation st outs).2).comps n).retry_count = 0 :=
  ⟨rfl, rfl, rfl⟩

/-! ## C9 -/

/-- C9: the command runner (both `_execute_command` and
`DockerHailo8Manager.run_command`) never lets an exception reach its
caller; a non-zero exit yields `(False, stdout, stderr)`; a timeout yields
the fixed reason string with empty captured output, and a spawn failure
yields the exception's message — both distinct in form from an ordinary
non-zero exit, whose streams come from the child process. -/
theorem command_runner_never_raises (o : CmdOutcome) (cap : Bool) :
    (∃ r, executeCommandTry o cap = Except.ok r) ∧
    (∃ r, dockerRunCommandTry o = Except.ok r) ∧
    (∀ rc out err, executeCommand (.exited rc out err) cap =
      ((rc == 0 : Bool), if cap then out else "", if cap then err else "")) ∧
    executeCommand .timedOut cap = (false, "", "命令执行超时") ∧
    (∀ msg, executeCommand (.spawnFailure msg) cap = (false, "", msg)) ∧
    (∀ rc out err, rc ≠ 0 → (executeCommand (.exited rc out err) cap).1 = false) := by
  refine ⟨?_, ?_, fun rc out err => rfl, rfl, fun msg => rfl, fun rc out err h => ?_⟩
  · cases o <;> exact ⟨_, rfl⟩
  · cases o <;> exact ⟨_, rfl⟩
  · simp only [executeCommand, executeCommandTry, subprocessRun]
    exact beq_eq_false_iff_ne.mpr h

/-- C9 (witness): a non-zero exit is reported as `success = false`, not
raised. -/
theorem command_runner_never_raises_witness :
    (executeCommand (.exited 1 "boot" "fail") true).1 = false :=
  (command_runner_never_raises (.exited 1 "boot" "fail") true).2.2.2.2.2 1 "boot" "fail"
    (by decide)

/-! ## C10 -/

/-- C10: `rollback_installation` returns `True` whatever the five shell
commands did, and its entire result is independent of those commands'
outcomes (their success flags are discarded). -/
theorem rollback_returns_true_and_ignores_commands (st : RunSt)
    (outs outs' : Fin 5 → CmdOutcome) :
    (rollbackInstallation st outs).1 = true ∧
    rollbackInstallation st outs = rollbackInstallation st outs' :=
  ⟨rfl, rfl⟩

end Hailo8
